/-
Verification of the mkenv configuration library.

The development shallowly embeds the reader/layer model of the crate:
environment lookup and file reads are injected capabilities bundled in a
`World`, each layer's `try_read_var`/`try_get` implementation becomes a pure
Lean function over the wrapped reader's function, and the aggregate
executor/report formatter is translated from `exec.rs` and `macros.rs`.
-/

import Mathlib

set_option maxRecDepth 4096

namespace Mkenv

/-- Result of one raw environment lookup, mirroring what `std::env::var`
can observe: the variable is unset, set but not valid unicode (carrying the
raw payload), or set to a text value. -/
inductive EnvLookup where
  | unset : EnvLookup
  | invalid (os : String) : EnvLookup
  | val (s : String) : EnvLookup
deriving DecidableEq, Repr

/-- The external capabilities of the library: environment lookup by name and
reading a file to a string (`fs::read_to_string`), which either yields the
file content or an I/O error message. -/
structure World where
  env : String → EnvLookup
  fs : String → Except String String

/-- Mirror of `std::env::VarError`: `NotPresent`, or `NotUnicode` carrying
the raw value. -/
inductive VarError where
  | notPresent : VarError
  | notUnicode (os : String) : VarError
deriving DecidableEq, Repr

/-- Model of a `Box<dyn Error>` value as it occurs in this crate: a boxed
`std::io::Error` (from `FileRead`), an arbitrary user error identified by
its display message, or a `ParseError` (from `error.rs`) wrapping its
source error. -/
inductive DynErr where
  | ioErr (msg : String) : DynErr
  | custom (msg : String) : DynErr
  | parse (source : DynErr) : DynErr
deriving DecidableEq, Repr

/-- Mirror of `ReadVarError` from `error.rs`: either a `std::env::VarError`
or some other boxed error. -/
inductive RVErr where
  | var (e : VarError) : RVErr
  | other (e : DynErr) : RVErr
deriving DecidableEq, Repr

/-- Display of `std::env::VarError` (its std `Display` impl). -/
def VarError.display : VarError → String
  | .notPresent => "environment variable not found"
  | .notUnicode os => "environment variable was not valid unicode: " ++ os

/-- Display of a boxed error; `ParseError`'s `Display` impl in `error.rs`
writes `"parse error: "` and then the display of its source. -/
def DynErr.display : DynErr → String
  | .ioErr msg => msg
  | .custom msg => msg
  | .parse source => "parse error: " ++ DynErr.display source

/-- Source chain of a boxed error: `ParseError::source` returns its wrapped
source error (`error.rs`); the other base errors expose no source here. -/
def DynErr.sourceOf : DynErr → Option DynErr
  | .parse source => some source
  | _ => none

/-- Display of `ReadVarError` (`error.rs`): delegates to the variant. -/
def RVErr.display : RVErr → String
  | .var e => e.display
  | .other e => e.display

/-- The `PartialEq` impl of `std::env::VarError` (derived, structural). -/
def VarError.peq : VarError → VarError → Bool
  | .notPresent, .notPresent => true
  | .notUnicode a, .notUnicode b => a == b
  | _, _ => false

/-- The manual `PartialEq` impl of `ReadVarError` in `error.rs`: `Var`
values compare by the inner `VarError`, any two `Other` values compare
equal, and mixed variants compare unequal. -/
def RVErr.peq : RVErr → RVErr → Bool
  | .var e1, .var e2 => VarError.peq e1 e2
  | .other _, .other _ => true
  | _, _ => false

/-- Mirror of `CachedError<'a, E>(&'a E)` from `error.rs`; the reference is
modelled by the referent value. -/
structure CachedErr (ε : Type) where
  err : ε
deriving DecidableEq, Repr

/-- The derived `PartialEq` of `CachedError`: compares the wrapped errors
using the error type's own equality. -/
def CachedErr.peq {ε : Type} (eq : ε → ε → Bool) (a b : CachedErr ε) : Bool :=
  eq a.err b.err

/-- Mirror of `std::env::var`: `Ok` with the text when set, `Err NotPresent`
when unset, `Err NotUnicode` when the value is not valid unicode. -/
def envVar (w : World) (name : String) : Except VarError String :=
  match w.env name with
  | .unset => .error .notPresent
  | .invalid os => .error (.notUnicode os)
  | .val s => .ok s

namespace TextVar

/-- The `Layer` impl of `TextVar` (`layers/text_var.rs`):
`env::var(self.descriptor.var_name).map_err(ReadVarError::Var)`. -/
def tryGet (name : String) (w : World) : Except RVErr String :=
  match envVar w name with
  | .ok s => .ok s
  | .error e => .error (.var e)

end TextVar

namespace OrDefault

/-- The `Layer` impl of `OrDefault` (`layers/or_default.rs`):
`Ok(self.var.try_get().unwrap_or_else(|_| (self.default_fn)()))`, with
error type `Infallible` modelled by `Empty`. -/
def tryGet {α ε : Type} (inner : World → Except ε α) (default_fn : Unit → α)
    (w : World) : Except Empty α :=
  .ok (match inner w with
    | .ok v => v
    | .error _ => default_fn ())

end OrDefault

namespace Cached

/-- The `Layer` impl of `&Cached` (`layers/cached.rs`):
`self.cached.get_or_init(|| self.var.try_read_var()).as_ref().map_err(CachedError)`.
The `OnceLock` cell is modelled by an explicit `Option` state threaded
through the call; the call returns the produced result together with the
cell's state after the call. -/
def tryReadVar {α ε : Type} (inner : World → Except ε α) (w : World)
    (st : Option (Except ε α)) : Except (CachedErr ε) α × Option (Except ε α) :=
  let stored := match st with
    | some r => r
    | none => inner w
  (match stored with
    | .ok v => .ok v
    | .error e => .error ⟨e⟩,
   some stored)

end Cached

namespace Parsed

/-- The `Layer` impl of `Parsed` (`layers/parsed.rs`): read the inner value
(converting its error into `ReadVarError` via the `?` operator, modelled by
`conv`), apply the parse function, and wrap a parse failure as
`ReadVarError::Other(Box::new(ParseError { source }))`. -/
def tryGet {α ε : Type} (conv : ε → RVErr) (inner : World → Except ε String)
    (parse_fn : String → Except DynErr α) (w : World) : Except RVErr α :=
  match inner w with
  | .error e => .error (conv e)
  | .ok raw_val =>
    match parse_fn raw_val with
    | .ok v => .ok v
    | .error source => .error (.other (.parse source))

end Parsed

namespace FileRead

/-- The `Layer` impl of `FileRead` (`layers/file_read.rs`): read the inner
value as a path (converting its error via `?`, modelled by `conv`), then
`fs::read_to_string(path).map_err(|e| ReadVarError::Other(Box::new(e)))`. -/
def tryGet {ε : Type} (conv : ε → RVErr) (inner : World → Except ε String)
    (w : World) : Except RVErr String :=
  match inner w with
  | .error e => .error (conv e)
  | .ok path =>
    match w.fs path with
    | .ok content => .ok content
    | .error ioMsg => .error (.other (.ioErr ioMsg))

end FileRead

/-- Mirror of `VarDescriptor` from `descriptor.rs`: variable name, optional
description, optional default-value label. -/
structure VarDescriptor where
  var_name : String
  description : Option String
  default_val_fmt : Option String
deriving DecidableEq, Repr

/-- The `Display` impl of `VarDescriptor` (`descriptor.rs`): the backquoted
name, then `": {desc}"` if a description is set, then
`" (default: {label})"` if a default label is set. -/
def VarDescriptor.render (d : VarDescriptor) : String :=
  "`" ++ d.var_name ++ "`"
    ++ (match d.description with
        | some desc => ": " ++ desc
        | none => "")
    ++ (match d.default_val_fmt with
        | some v => " (default: " ++ v ++ ")"
        | none => "")

/-- Mirror of `ExecResult` (`exec.rs`): the field's descriptor together with
the optional boxed error its reader produced. -/
structure ExecResult where
  config : VarDescriptor
  error : Option DynErr
deriving DecidableEq, Repr

/-- Mirror of `ExecFailedResult` (`exec.rs`): a descriptor together with the
boxed error of the failed read. -/
structure ExecFailedResult where
  config : VarDescriptor
  error : DynErr
deriving DecidableEq, Repr

/-- Mirror of `FmtExecResults` (`exec.rs`). -/
structure FmtExecResults where
  correct_vars : List VarDescriptor
  incorrect_vars : List ExecFailedResult
deriving DecidableEq, Repr

/-- Mirror of `fmt_exec_results` (`exec.rs`): iterate the results in order,
pushing failed ones to `incorrect_vars` and the rest to `correct_vars`. -/
def fmtExecResults (results : List ExecResult) : FmtExecResults :=
  results.foldl
    (fun acc result =>
      match result.error with
      | some err =>
        { acc with incorrect_vars := acc.incorrect_vars ++ [⟨result.config, err⟩] }
      | none =>
        { acc with correct_vars := acc.correct_vars ++ [result.config] })
    ⟨[], []⟩

/-- The pluralization in the `Display` impl of `FmtExecResults`:
`if len > 1 \x7b "s" \x7d else \x7b "" \x7d`. -/
def pluralS (n : Nat) : String :=
  if n > 1 then "s" else ""

/-- The `Display` impl of `FmtExecResults` (`exec.rs`): the incorrect-count
header and one line per incorrect variable, the valid-count header and one
line per correct variable, then the full catalogue of descriptors obtained
by chaining the incorrect descriptors with the correct ones. -/
def FmtExecResults.render (r : FmtExecResults) : String :=
  "Got " ++ toString r.incorrect_vars.length ++ " incorrect variable"
    ++ pluralS r.incorrect_vars.length ++ "\n"
    ++ String.join (r.incorrect_vars.map
        (fun v => "- `" ++ v.config.var_name ++ "`: " ++ v.error.display ++ "\n"))
    ++ "Got " ++ toString r.correct_vars.length ++ " valid variable"
    ++ pluralS r.correct_vars.length ++ "\n"
    ++ String.join (r.correct_vars.map
        (fun v => "- `" ++ v.var_name ++ "`\n"))
    ++ "Full required environment description:\n"
    ++ String.join ((r.incorrect_vars.map (fun v => v.config) ++ r.correct_vars).map
        (fun d => "- " ++ d.render ++ "\n"))

/-- Mirror of `ConfigInitError` (`error.rs`): wraps the formatted report. -/
structure ConfigInitError where
  error : FmtExecResults
deriving DecidableEq, Repr

/-- The `Display` impl of `ConfigInitError` (`error.rs`). -/
def ConfigInitError.render (e : ConfigInitError) : String :=
  "Error during configuration initialization:\n" ++ e.error.render

/-- Mirror of `ConfigInitializer::try_init` (`exec.rs`): format the results
of the full execution, succeed when `incorrect_vars` is empty, otherwise
return a `ConfigInitError` wrapping the report. -/
def tryInit (results : List ExecResult) : Except ConfigInitError Unit :=
  let res := fmtExecResults results
  if res.incorrect_vars.isEmpty then
    .ok ()
  else
    .error ⟨res⟩

/-- A field of a configuration struct, as wired by `make_config!`
(`macros.rs`): either a leaf field bound to a `var_name` (modelled by its
descriptor and the erased read, which the macro turns into
`once(ExecResult \x7b config, error \x7d)`), or a nested configuration type
whose own fields are spliced in via its `exec_raw`. -/
inductive FieldSpec where
  | leaf (d : VarDescriptor) (err : World → Option DynErr) : FieldSpec
  | nested (fields : List FieldSpec) : FieldSpec

/-- Mirror of the `exec_raw` implementation generated by `make_config!`
(`@__field_kind_calls` in `macros.rs`): the chain of, per declared field in
order, either the single `ExecResult` of a leaf field or the whole
`exec_raw` sequence of a nested configuration. -/
def execRawFields (w : World) : List FieldSpec → List ExecResult
  | [] => []
  | .leaf d err :: rest => ⟨d, err w⟩ :: execRawFields w rest
  | .nested fs :: rest => execRawFields w fs ++ execRawFields w rest

/-- The leaves of a declared configuration, in declaration order with nested
configurations flattened in their own declaration order. -/
def leafFields : List FieldSpec → List (VarDescriptor × (World → Option DynErr))
  | [] => []
  | .leaf d err :: rest => (d, err) :: leafFields rest
  | .nested fs :: rest => leafFields fs ++ leafFields rest

/-- A reader stack as built by the layer constructors in `builder.rs`: a
base `TextVar` holding its descriptor, wrapped by any sequence of the four
layer types. -/
inductive ReaderStack where
  | base (d : VarDescriptor) : ReaderStack
  | cachedOf (v : ReaderStack) : ReaderStack
  | fileReadOf (v : ReaderStack) : ReaderStack
  | parsedOf (v : ReaderStack) : ReaderStack
  | orDefaultOf (v : ReaderStack) : ReaderStack
deriving DecidableEq, Repr

/-- Mirror of the `ConfigValueDescriptor` impls: `TextVar` returns its own
descriptor (`layers/text_var.rs`), and each of `Cached`, `FileRead`,
`Parsed` and `OrDefault` returns `self.var.get_descriptor()`. -/
def getDescriptor : ReaderStack → VarDescriptor
  | .base d => d
  | .cachedOf v => getDescriptor v
  | .fileReadOf v => getDescriptor v
  | .parsedOf v => getDescriptor v
  | .orDefaultOf v => getDescriptor v

/-- One of the four layer constructors of `builder.rs`. -/
inductive LayerKind where
  | cachedK : LayerKind
  | fileReadK : LayerKind
  | parsedK : LayerKind
  | orDefaultK : LayerKind
deriving DecidableEq, Repr

/-- Wrap a reader stack in one more layer. -/
def pushLayer : LayerKind → ReaderStack → ReaderStack
  | .cachedK, v => .cachedOf v
  | .fileReadK, v => .fileReadOf v
  | .parsedK, v => .parsedOf v
  | .orDefaultK, v => .orDefaultOf v

/-- Build a reader stack over a base by applying a list of layers from the
innermost outward. -/
def applyLayers (ls : List LayerKind) (v : ReaderStack) : ReaderStack :=
  ls.foldl (fun acc l => pushLayer l acc) v

/-- Spec-side characterization of the correct group of a report: the
descriptors of the results without an error, in their original order. -/
def correctOf (results : List ExecResult) : List VarDescriptor :=
  (results.filter (fun r => r.error.isNone)).map (fun r => r.config)

/-- Spec-side characterization of the incorrect group of a report: the
failed results paired with their errors, in their original order. -/
def incorrectOf (results : List ExecResult) : List ExecFailedResult :=
  results.filterMap (fun r => r.error.map (fun e => (⟨r.config, e⟩ : ExecFailedResult)))

/-- Decimal digits accumulator of the standard integer `FromStr` parsing:
consume digits left to right, failing on the first non-digit. -/
def parseDigitsAux : List Char → Nat → Option Nat
  | [], acc => some acc
  | c :: cs, acc =>
    if c.isDigit then parseDigitsAux cs (acc * 10 + (c.toNat - 48)) else none

/-- Decimal parsing of a character list: empty input is invalid, otherwise
all characters must be digits. -/
def parseDecimal (cs : List Char) : Option Nat :=
  match cs with
  | [] => none
  | _ :: _ => parseDigitsAux cs 0

/-- Model of the `parsed_from_str` conversion for an unsigned integer
target (`builder.rs`): parse the decimal text with the standard `FromStr`
integer parsing, or fail with the boxed `ParseIntError` whose display is
the invalid-digit message. -/
def parseNatFn : String → Except DynErr Nat :=
  fun s =>
    match parseDecimal s.data with
    | some n => .ok n
    | none => .error (.custom "invalid digit found in string")

/-- Descriptor of the example field `VAR_A`. -/
def dA : VarDescriptor := ⟨"VAR_A", none, none⟩

/-- Descriptor of the example field `VAR_B`. -/
def dB : VarDescriptor := ⟨"VAR_B", none, none⟩

/-- Descriptor of the example field `VAR_C`. -/
def dC : VarDescriptor := ⟨"VAR_C", some "hello", none⟩

/-- Descriptor of the example field `VAR_D`. -/
def dD : VarDescriptor := ⟨"VAR_D", none, some "empty"⟩

/-- The nested-aggregate example of the flattening test in `macros.rs`: a
parent declaring a nested aggregate with fields `VAR_A`, `VAR_B` first and
its own fields `VAR_C`, `VAR_D` after; `VAR_A` fails its read. -/
def exampleBar : List FieldSpec :=
  [.nested [.leaf dA (fun _ => some (.custom "boom")), .leaf dB (fun _ => none)],
   .leaf dC (fun _ => none),
   .leaf dD (fun _ => none)]

/-- World in which the variable `V` is set to `foo`. -/
def envFooWorld : World :=
  ⟨fun n => if n = "V" then .val "foo" else .unset, fun _ => .error "unused"⟩

/-- World in which the variable `V` is set to `bar`. -/
def envBarWorld : World :=
  ⟨fun n => if n = "V" then .val "bar" else .unset, fun _ => .error "unused"⟩

/-- World in which every variable is unset. -/
def unsetWorld : World :=
  ⟨fun _ => .unset, fun _ => .error "unused"⟩

/-- World in which the variable `NUM` is set to the malformed text
`foobar`. -/
def malformedWorld : World :=
  ⟨fun n => if n = "NUM" then .val "foobar" else .unset, fun _ => .error "unused"⟩

/-- World in which the variable `NUM` is set to `30`. -/
def numWorld : World :=
  ⟨fun n => if n = "NUM" then .val "30" else .unset, fun _ => .error "unused"⟩

/-- World in which the variables `VAR_A` and `VAR_B` both point at a path
whose file read fails with a not-found I/O error. -/
def missingFileWorld : World :=
  ⟨fun n => if n = "VAR_A" ∨ n = "VAR_B" then .val "/missing" else .unset,
   fun _ => .error "No such file or directory (os error 2)"⟩

/-- World in which the variable `PATH_VAR` points at a file containing
`hello`. -/
def helloFileWorld : World :=
  ⟨fun n => if n = "PATH_VAR" then .val "/data/greeting" else .unset,
   fun p => if p = "/data/greeting" then .ok "hello"
            else .error "No such file or directory (os error 2)"⟩

/-- The descriptor of a reader stack is the descriptor of the reader it was
built from, whatever layers were pushed on top. -/
theorem getDescriptor_applyLayers (ls : List LayerKind) (v : ReaderStack) :
    getDescriptor (applyLayers ls v) = getDescriptor v := by
  induction ls generalizing v with
  | nil => rfl
  | cons l ls ih =>
    have h1 : applyLayers (l :: ls) v = applyLayers ls (pushLayer l v) := rfl
    rw [h1, ih]
    cases l <;> rfl

/-- C1: for the `OrDefault` layer over any wrapped reader, the read never
fails (the error type is the uninhabited `Infallible`); on inner success it
returns the inner value unchanged, and on inner failure for any reason it
discards the inner error and returns the result of the zero-argument
default-value producer. -/
theorem or_default_spec {α ε : Type} (inner : World → Except ε α)
    (default_fn : Unit → α) (w : World) :
    (∀ e : Empty, OrDefault.tryGet inner default_fn w ≠ .error e)
    ∧ (∀ v, inner w = .ok v → OrDefault.tryGet inner default_fn w = .ok v)
    ∧ (∀ e, inner w = .error e →
        OrDefault.tryGet inner default_fn w = .ok (default_fn ())) := by
  refine ⟨fun e => e.elim, fun v h => ?_, fun e h => ?_⟩ <;>
    simp [OrDefault.tryGet, h]

/-- Witness for C1: with `NUM` set to the malformed text `foobar` and the
inner reader parsing it as an integer, the defaulted read still succeeds
with the fallback value, even though the variable is present. -/
theorem or_default_spec_witness :
    OrDefault.tryGet (Parsed.tryGet id (TextVar.tryGet "NUM") parseNatFn)
      (fun _ => 7) malformedWorld = .ok 7 :=
  (or_default_spec (Parsed.tryGet id (TextVar.tryGet "NUM") parseNatFn)
      (fun _ => 7) malformedWorld).2.2
    (.other (.parse (.custom "invalid digit found in string"))) rfl

/-- C8: the base `TextVar` read fails with `NotPresent` when the variable
is unset, returns the exact external text when it is set, fails with the
lookup mechanism's `NotUnicode` error when the value is not valid unicode,
and its result depends only on the live external value of that name. -/
theorem text_var_spec (w : World) (name : String) :
    (w.env name = .unset → TextVar.tryGet name w = .error (.var .notPresent))
    ∧ (∀ s, w.env name = .val s → TextVar.tryGet name w = .ok s)
    ∧ (∀ os, w.env name = .invalid os →
        TextVar.tryGet name w = .error (.var (.notUnicode os)))
    ∧ (∀ w2 : World, w.env name = w2.env name →
        TextVar.tryGet name w = TextVar.tryGet name w2) := by
  refine ⟨fun h => ?_, fun s h => ?_, fun os h => ?_, fun w2 h => ?_⟩ <;>
    simp [TextVar.tryGet, envVar, h]

/-- Witness for C8: reading `V` in a world where it is set to `foo` yields
exactly `foo`, and reading it in a world where it is unset yields the
`NotPresent` error. -/
theorem text_var_spec_witness :
    TextVar.tryGet "V" envFooWorld = .ok "foo"
    ∧ TextVar.tryGet "V" unsetWorld = .error (.var .notPresent) :=
  ⟨(text_var_spec envFooWorld "V").2.1 "foo" rfl,
   (text_var_spec unsetWorld "V").1 rfl⟩

/-- C2: for the `Cached` layer over any wrapped reader, the first read
performs the inner read and stores the complete result in the cell; every
read, first and subsequent, returns that stored result (wrapped in
`CachedError` on failure) whatever the external world has become; in
particular a value read as `foo` is still returned after the variable
changes to `bar`, and a cached failure is re-reported on every later
call. -/
theorem cached_spec {α ε : Type} (inner : World → Except ε α) (w w2 : World) :
    (Cached.tryReadVar inner w none).2 = some (inner w)
    ∧ (Cached.tryReadVar inner w none).1
      = (match inner w with
         | .ok v => (.ok v : Except (CachedErr ε) α)
         | .error e => .error ⟨e⟩)
    ∧ (∀ r, Cached.tryReadVar inner w2 (some r)
        = ((match r with
            | .ok v => (.ok v : Except (CachedErr ε) α)
            | .error e => .error ⟨e⟩), some r))
    ∧ Cached.tryReadVar inner w2 (Cached.tryReadVar inner w none).2
      = Cached.tryReadVar inner w none
    ∧ (Cached.tryReadVar (TextVar.tryGet "V") envBarWorld
        (Cached.tryReadVar (TextVar.tryGet "V") envFooWorld none).2).1 = .ok "foo"
    ∧ (Cached.tryReadVar (TextVar.tryGet "V") envFooWorld
        (Cached.tryReadVar (TextVar.tryGet "V") unsetWorld none).2).1
      = .error ⟨.var .notPresent⟩ := by
  refine ⟨rfl, ?_, fun r => ?_, ?_, rfl, rfl⟩
  · cases h : inner w <;> simp [Cached.tryReadVar, h]
  · cases r <;> simp [Cached.tryReadVar]
  · cases h : inner w <;> simp [Cached.tryReadVar, h]

/-- Counterexample for C9: two cached errors wrapping lookup errors of the
same kind (`NotUnicode`) with different payloads compare unequal, while
equal payloads compare equal — so equality is not payload-blind for every
wrapped kind. -/
theorem cached_error_eq_counterexample :
    CachedErr.peq RVErr.peq ⟨.var (.notUnicode "a")⟩ ⟨.var (.notUnicode "b")⟩ = false
    ∧ CachedErr.peq RVErr.peq ⟨.var (.notUnicode "a")⟩ ⟨.var (.notUnicode "a")⟩ = true := by
  constructor <;> decide

/-- C9 (amended): cached errors wrapping boxed `Other` errors compare equal
regardless of payload; cached errors wrapping `Var` lookup errors compare
by the underlying `VarError` value, so their payloads must match; mixed
variants compare unequal. -/
theorem cached_error_eq_spec (d1 d2 : DynErr) (v1 v2 : VarError) :
    CachedErr.peq RVErr.peq ⟨.other d1⟩ ⟨.other d2⟩ = true
    ∧ CachedErr.peq RVErr.peq ⟨.var v1⟩ ⟨.var v2⟩ = VarError.peq v1 v2
    ∧ CachedErr.peq RVErr.peq ⟨.var v1⟩ ⟨.other d1⟩ = false
    ∧ CachedErr.peq RVErr.peq ⟨.other d1⟩ ⟨.var v1⟩ = false :=
  ⟨rfl, rfl, rfl, rfl⟩

/-- C10: every layer wrapper returns the descriptor of the reader it wraps
unchanged, so the descriptor observed at the top of any layer stack built
over a base `TextVar` is exactly the base reader's descriptor. -/
theorem descriptor_pass_through (v : ReaderStack) :
    getDescriptor (.cachedOf v) = getDescriptor v
    ∧ getDescriptor (.fileReadOf v) = getDescriptor v
    ∧ getDescriptor (.parsedOf v) = getDescriptor v
    ∧ getDescriptor (.orDefaultOf v) = getDescriptor v
    ∧ ∀ ls d, getDescriptor (applyLayers ls (.base d)) = d :=
  ⟨rfl, rfl, rfl, rfl, fun ls d => getDescriptor_applyLayers ls (.base d)⟩

/-- Counterexample for C6: two `FileRead` stacks whose base readers have
different field names, in a world where both names point to the same
missing file, produce literally equal errors; since the names differ, no
function can recover the originating field name from the error value, so
the error does not carry the field name. -/
theorem file_read_error_counterexample :
    FileRead.tryGet id (TextVar.tryGet "VAR_A") missingFileWorld
      = FileRead.tryGet id (TextVar.tryGet "VAR_B") missingFileWorld
    ∧ FileRead.tryGet id (TextVar.tryGet "VAR_A") missingFileWorld
      = .error (.other (.ioErr "No such file or directory (os error 2)"))
    ∧ "VAR_A" ≠ "VAR_B"
    ∧ ¬ ∃ nameOf : Except RVErr String → String,
        nameOf (FileRead.tryGet id (TextVar.tryGet "VAR_A") missingFileWorld) = "VAR_A"
        ∧ nameOf (FileRead.tryGet id (TextVar.tryGet "VAR_B") missingFileWorld) = "VAR_B" := by
  have hAB : FileRead.tryGet id (TextVar.tryGet "VAR_A") missingFileWorld
      = FileRead.tryGet id (TextVar.tryGet "VAR_B") missingFileWorld := rfl
  refine ⟨hAB, rfl, by decide, ?_⟩
  rintro ⟨f, h1, h2⟩
  rw [hAB] at h1
  exact absurd (h1.symm.trans h2) (by decide)

/-- C6 (amended): when the inner reader succeeds but reading the file at
the produced path fails, the `FileRead` read fails with an I/O error
wrapping the underlying I/O cause; an inner failure is propagated through
the error conversion, and an inner success with a readable file yields the
file content. The originating field name is not part of the error value —
it is attached through the reader's descriptor when results are
reported. -/
theorem file_read_error_spec {ε : Type} (conv : ε → RVErr)
    (inner : World → Except ε String) (w : World) :
    (∀ path ioMsg, inner w = .ok path → w.fs path = .error ioMsg →
      FileRead.tryGet conv inner w = .error (.other (.ioErr ioMsg)))
    ∧ (∀ e, inner w = .error e → FileRead.tryGet conv inner w = .error (conv e))
    ∧ (∀ path content, inner w = .ok path → w.fs path = .ok content →
        FileRead.tryGet conv inner w = .ok content) := by
  refine ⟨fun path ioMsg h1 h2 => ?_, fun e h => ?_, fun path content h1 h2 => ?_⟩ <;>
    simp [FileRead.tryGet, *]

/-- Witness for C6 (amended): a missing file fails with the not-found I/O
cause, and a readable file yields its content. -/
theorem file_read_error_spec_witness :
    FileRead.tryGet id (TextVar.tryGet "VAR_A") missingFileWorld
      = .error (.other (.ioErr "No such file or directory (os error 2)"))
    ∧ FileRead.tryGet id (TextVar.tryGet "PATH_VAR") helloFileWorld = .ok "hello" :=
  ⟨(file_read_error_spec id (TextVar.tryGet "VAR_A") missingFileWorld).1
      "/missing" "No such file or directory (os error 2)" rfl rfl,
   (file_read_error_spec id (TextVar.tryGet "PATH_VAR") helloFileWorld).2.2
      "/data/greeting" "hello" rfl rfl⟩

/-- C7: for the `Parsed` layer, on inner success the conversion function is
applied to the inner string output; a conversion failure is wrapped in the
distinguishable parse-error kind whose displayed message is
`parse error: ` followed by the cause's message, and whose source chain
exposes the cause; the parse-error kind is distinct from the other boxed
error kinds. -/
theorem parsed_spec {α ε : Type} (conv : ε → RVErr)
    (inner : World → Except ε String) (parse_fn : String → Except DynErr α)
    (w : World) (raw_val : String) (hin : inner w = .ok raw_val) :
    (∀ v, parse_fn raw_val = .ok v → Parsed.tryGet conv inner parse_fn w = .ok v)
    ∧ (∀ source, parse_fn raw_val = .error source →
        Parsed.tryGet conv inner parse_fn w = .error (.other (.parse source))
        ∧ RVErr.display (.other (.parse source)) = "parse error: " ++ source.display
        ∧ DynErr.sourceOf (.parse source) = some source
        ∧ ∀ msg, DynErr.parse source ≠ DynErr.ioErr msg
            ∧ DynErr.parse source ≠ DynErr.custom msg) := by
  refine ⟨fun v h => ?_, fun source h => ⟨?_, rfl, rfl, fun msg => ⟨?_, ?_⟩⟩⟩ <;>
    simp [Parsed.tryGet, RVErr.display, DynErr.display, hin, h]

/-- Witness for C7: `30` parsed as an integer yields `30`, and `foobar`
parsed as an integer yields the parse error whose cause is the
invalid-digit condition. -/
theorem parsed_spec_witness :
    Parsed.tryGet id (TextVar.tryGet "NUM") parseNatFn numWorld = .ok 30
    ∧ Parsed.tryGet id (TextVar.tryGet "NUM") parseNatFn malformedWorld
      = .error (.other (.parse (.custom "invalid digit found in string"))) :=
  ⟨(parsed_spec id (TextVar.tryGet "NUM") parseNatFn numWorld "30" rfl).1 30 rfl,
   ((parsed_spec id (TextVar.tryGet "NUM") parseNatFn malformedWorld "foobar" rfl).2
      (.custom "invalid digit found in string") rfl).1⟩

/-- The generated `exec_raw` sequence is the flattened leaf list, each leaf
read exactly once, in declaration order. -/
theorem execRawFields_eq_leaves (w : World) (fields : List FieldSpec) :
    execRawFields w fields
      = (leafFields fields).map (fun l => (⟨l.1, l.2 w⟩ : ExecResult)) := by
  induction fields using execRawFields.induct w with
  | case1 => simp [execRawFields, leafFields]
  | case2 d err rest ih => simp [execRawFields, leafFields, ih]
  | case3 fs rest ih1 ih2 => simp [execRawFields, leafFields, ih1, ih2]

/-- C3: the aggregate executor produces one result per leaf field — every
reader runs exactly once, with no short-circuiting on failure — and a
nested aggregate's results are spliced into the parent's sequence in the
nested struct's own declared order: a parent declaring a nested aggregate
with fields `VAR_A`, `VAR_B` first and its own fields `VAR_C`, `VAR_D`
after produces exec order `VAR_A`, `VAR_B`, `VAR_C`, `VAR_D`, and the
failure of `VAR_A` does not suppress any later result. -/
theorem exec_flattening_spec (w : World) :
    (∀ fields, execRawFields w fields
        = (leafFields fields).map (fun l => (⟨l.1, l.2 w⟩ : ExecResult)))
    ∧ (∀ fields, (execRawFields w fields).length = (leafFields fields).length)
    ∧ (∀ fs rest, execRawFields w (.nested fs :: rest)
        = execRawFields w fs ++ execRawFields w rest)
    ∧ (execRawFields w exampleBar).map (fun r => r.config.var_name)
      = ["VAR_A", "VAR_B", "VAR_C", "VAR_D"]
    ∧ (execRawFields w exampleBar).map (fun r => r.error)
      = [some (.custom "boom"), none, none, none] := by
  refine ⟨execRawFields_eq_leaves w, fun fields => ?_, fun fs rest => ?_, ?_, ?_⟩
  · rw [execRawFields_eq_leaves w fields, List.length_map]
  · simp [execRawFields]
  · simp [exampleBar, execRawFields, dA, dB, dC, dD]
  · simp [exampleBar, execRawFields, dA, dB, dC, dD]

/-- Generalized accumulator form of the `fmt_exec_results` loop: the loop
appends the failed results to `incorrect_vars` and the others to
`correct_vars`, in traversal order. -/
theorem fmtExecResults_go (results : List ExecResult) (acc : FmtExecResults) :
    results.foldl
      (fun acc result =>
        match result.error with
        | some err =>
          { acc with incorrect_vars := acc.incorrect_vars ++ [⟨result.config, err⟩] }
        | none =>
          { acc with correct_vars := acc.correct_vars ++ [result.config] })
      acc
      = ⟨acc.correct_vars ++ correctOf results, acc.incorrect_vars ++ incorrectOf results⟩ := by
  induction results generalizing acc with
  | nil => simp [correctOf, incorrectOf]
  | cons r rs ih =>
    cases h : r.error with
    | some e =>
      simp [List.foldl_cons, h, ih, correctOf, incorrectOf, List.filter_cons,
        List.filterMap_cons, List.append_assoc]
    | none =>
      simp [List.foldl_cons, h, ih, correctOf, incorrectOf, List.filter_cons,
        List.filterMap_cons, List.append_assoc]

/-- The partition produced by `fmt_exec_results`: the incorrect group is
exactly the failed results with their errors, the correct group exactly the
successful descriptors, both in traversal order. -/
theorem fmtExecResults_characterization (results : List ExecResult) :
    fmtExecResults results = ⟨correctOf results, incorrectOf results⟩ := by
  have h := fmtExecResults_go results ⟨[], []⟩
  simpa [fmtExecResults] using h

/-- C4: `try_init` succeeds exactly when the incorrect list of the full
execution's report is empty — equivalently, when no field produced an
error — and otherwise returns the initialization error wrapping the
complete report of correct and incorrect variables. -/
theorem try_init_spec (results : List ExecResult) :
    (tryInit results = .ok () ↔ (fmtExecResults results).incorrect_vars = [])
    ∧ ((fmtExecResults results).incorrect_vars ≠ [] →
        tryInit results = .error ⟨fmtExecResults results⟩)
    ∧ ((fmtExecResults results).incorrect_vars = [] ↔ ∀ r ∈ results, r.error = none) := by
  have hdef : tryInit results
      = if (fmtExecResults results).incorrect_vars.isEmpty
        then (.ok () : Except ConfigInitError Unit)
        else .error ⟨fmtExecResults results⟩ := rfl
  refine ⟨?_, fun hne => ?_, ?_⟩
  · rw [hdef]
    by_cases h : (fmtExecResults results).incorrect_vars = []
    · simp [h]
    · simp [h, List.isEmpty_iff]
  · rw [hdef, if_neg (by simpa [List.isEmpty_iff] using hne)]
  · rw [fmtExecResults_characterization]
    simp [incorrectOf, List.filterMap_eq_nil_iff, Option.map_eq_none']

/-- Witness for C4: a single failing field produces the wrapped report
error, and a single succeeding field initializes successfully. -/
theorem try_init_spec_witness :
    tryInit [⟨dA, some (.custom "boom")⟩]
      = .error ⟨fmtExecResults [⟨dA, some (.custom "boom")⟩]⟩
    ∧ tryInit [⟨dB, none⟩] = .ok () :=
  ⟨(try_init_spec [⟨dA, some (.custom "boom")⟩]).2.1 (by decide),
   (try_init_spec [⟨dB, none⟩]).1.mpr (by decide)⟩

/-- C5: the rendered report lists the incorrect entries first, then the
correct entries, each group preserving the execution's declaration order,
then a catalogue of the full descriptors ordered incorrect-first,
correct-second; counts take a trailing `s` exactly when strictly greater
than one (0 and 1 are singular), and a descriptor line is the backquoted
name with the description clause and the default clause each omitted when
not set. -/
theorem report_rendering_spec :
    (∀ results, (fmtExecResults results).incorrect_vars = incorrectOf results
        ∧ (fmtExecResults results).correct_vars = correctOf results)
    ∧ (∀ results, (fmtExecResults results).render
        = "Got " ++ toString (incorrectOf results).length ++ " incorrect variable"
            ++ pluralS (incorrectOf results).length ++ "\n"
          ++ String.join ((incorrectOf results).map
              (fun v => "- `" ++ v.config.var_name ++ "`: " ++ v.error.display ++ "\n"))
          ++ "Got " ++ toString (correctOf results).length ++ " valid variable"
            ++ pluralS (correctOf results).length ++ "\n"
          ++ String.join ((correctOf results).map
              (fun v => "- `" ++ v.var_name ++ "`\n"))
          ++ "Full required environment description:\n"
          ++ String.join
              (((incorrectOf results).map (fun v => v.config) ++ correctOf results).map
                (fun d => "- " ++ d.render ++ "\n")))
    ∧ (∀ n, (pluralS n = "s" ↔ 1 < n) ∧ (pluralS n = "" ↔ n ≤ 1))
    ∧ (pluralS 0 = "" ∧ pluralS 1 = "" ∧ pluralS 2 = "s")
    ∧ (∀ name, VarDescriptor.render ⟨name, none, none⟩ = "`" ++ name ++ "`")
    ∧ (∀ name desc, VarDescriptor.render ⟨name, some desc, none⟩
        = "`" ++ name ++ "`" ++ ": " ++ desc)
    ∧ (∀ name dv, VarDescriptor.render ⟨name, none, some dv⟩
        = "`" ++ name ++ "`" ++ " (default: " ++ dv ++ ")")
    ∧ (∀ name desc dv, VarDescriptor.render ⟨name, some desc, some dv⟩
        = "`" ++ name ++ "`" ++ ": " ++ desc ++ " (default: " ++ dv ++ ")") := by
  refine ⟨fun results => ?_, fun results => ?_, fun n => ⟨?_, ?_⟩, ⟨rfl, rfl, rfl⟩,
    fun name => ?_, fun name desc => ?_, fun name dv => ?_, fun name desc dv => ?_⟩
  · rw [fmtExecResults_characterization]
    exact ⟨rfl, rfl⟩
  · rw [fmtExecResults_characterization]
    rfl
  · by_cases h : 1 < n
    · simp [pluralS, h]
    · simp [pluralS, h]
  · by_cases h : 1 < n
    · simp [pluralS, h]
    · simp [pluralS, h]
      omega
  · simp [VarDescriptor.render]
  · simp [VarDescriptor.render, String.append_assoc]
    rw [← String.append_assoc "`" ": " desc]
    rfl
  · simp [VarDescriptor.render, String.append_assoc]
    rw [← String.append_assoc "`" " (default: " (dv ++ ")")]
    rfl
  · simp [VarDescriptor.render, String.append_assoc]
    rw [← String.append_assoc "`" ": " (desc ++ (" (default: " ++ (dv ++ ")")))]
    rfl

end Mkenv
